import Mathlib

/-!
Verification of the sampler's pad audio engine and sample-editing subsystem.

The definitions below are a shallow embedding of the TypeScript/JavaScript
source: the `AudioEngine` service (pad store, playback, trim/gain,
silence-based segmentation, buffer splitting), the WAV encoder
`audioBufferToWav`, and the `TrimbarsDrawer` trim-bar geometry controller.
JavaScript numbers are modelled as exact rationals (`ℚ`); every claim under
verification only involves exactly-representable values, so rational
arithmetic is faithful on them.
-/

/-- Web Audio `AudioBuffer`: per-channel float samples, a frame count
(`length`), and a sample rate.  Samples are modelled as rationals. -/
structure AudioBuffer where
  numberOfChannels : ℕ
  length : ℕ
  sampleRate : ℚ
  channelData : List (List ℚ)
deriving Repr, DecidableEq

/-- `buffer.duration = length / sampleRate` (seconds). -/
def AudioBuffer.duration (b : AudioBuffer) : ℚ :=
  (b.length : ℚ) / b.sampleRate

/-- `buffer.getChannelData(ch)`; a missing channel reads as empty. -/
def AudioBuffer.getChannelData (b : AudioBuffer) (channel : ℕ) : List ℚ :=
  b.channelData.getD channel []

/-- `ctx.createBuffer(numberOfChannels, length, sampleRate)`: zero-filled. -/
def createBuffer (numberOfChannels length : ℕ) (sampleRate : ℚ) : AudioBuffer :=
  { numberOfChannels := numberOfChannels
    length := length
    sampleRate := sampleRate
    channelData := List.replicate numberOfChannels (List.replicate length 0) }

/-- A detected non-silent interval, in seconds.  The source field `end` is a
Lean keyword and is rendered here as `stop`. -/
structure SoundSegment where
  start : ℚ
  stop : ℚ
deriving Repr, DecidableEq

/-- One pad slot of the sampler (source interface `Pad`). -/
structure Pad where
  index : ℕ
  buffer : Option AudioBuffer
  name : String
  loaded : Bool
  trimStart : ℚ
  trimEnd : ℚ
  gain : ℚ
deriving Repr, DecidableEq

/-- The `AUDIO_CONFIG` constant object. -/
structure AudioConfig where
  MAX_PADS : ℕ
  DEFAULT_GAIN : ℚ
  MAX_GAIN : ℚ
  MIN_GAIN : ℚ

/-- `AUDIO_CONFIG = { MAX_PADS: 16, DEFAULT_GAIN: 1.0, MAX_GAIN: 2.0, MIN_GAIN: 0 }`. -/
def AUDIO_CONFIG : AudioConfig :=
  { MAX_PADS := 16, DEFAULT_GAIN := 1, MAX_GAIN := 2, MIN_GAIN := 0 }

/-- The `SILENCE_DETECTION_DEFAULTS` constant object. -/
structure SilenceDetectionDefaults where
  THRESHOLD : ℚ
  MIN_SILENCE_DURATION : ℚ
  MIN_SOUND_DURATION : ℚ

/-- `SILENCE_DETECTION_DEFAULTS = { THRESHOLD: 0.02, MIN_SILENCE_DURATION: 0.1,
MIN_SOUND_DURATION: 0.05 }`. -/
def SILENCE_DETECTION_DEFAULTS : SilenceDetectionDefaults :=
  { THRESHOLD := 2/100, MIN_SILENCE_DURATION := 1/10, MIN_SOUND_DURATION := 5/100 }

/-- Engine state: `ctx` and `masterGain` model whether the `AudioContext` and
master gain node are non-null; `pads` is the slot array. -/
structure AudioEngine where
  ctx : Bool
  masterGain : Bool
  pads : List Pad
deriving Repr, DecidableEq

/-- `createEmptyPad(index)`. -/
def AudioEngine.createEmptyPad (index : ℕ) : Pad :=
  { index := index
    buffer := none
    name := "Pad " ++ toString (index + 1)
    loaded := false
    trimStart := 0
    trimEnd := 1
    gain := AUDIO_CONFIG.DEFAULT_GAIN }

/-- `initializePads()`: one empty pad per index `0 .. MAX_PADS-1`. -/
def AudioEngine.initPads : List Pad :=
  (List.range AUDIO_CONFIG.MAX_PADS).map AudioEngine.createEmptyPad

/-- The constructor plus `initialize()`: creates the context and master gain,
then the pads. -/
def AudioEngine.initEngine : AudioEngine :=
  { ctx := true, masterGain := true, pads := AudioEngine.initPads }

/-- `isValidPadIndex(padIndex)`: `padIndex >= 0 && padIndex < AUDIO_CONFIG.MAX_PADS`. -/
def isValidPadIndex (padIndex : ℤ) : Prop :=
  0 ≤ padIndex ∧ padIndex < (AUDIO_CONFIG.MAX_PADS : ℤ)

instance (padIndex : ℤ) : Decidable (isValidPadIndex padIndex) :=
  inferInstanceAs (Decidable (_ ∧ _))

/-- `getPad(padIndex)`: `null` on an invalid index, else `this.pads[padIndex]`. -/
def AudioEngine.getPad (e : AudioEngine) (padIndex : ℤ) : Option Pad :=
  if isValidPadIndex padIndex then e.pads[padIndex.toNat]? else none

/-- `resetPad(padIndex)`: restores default trim and gain on a loaded pad. -/
def AudioEngine.resetPad (e : AudioEngine) (padIndex : ℤ) : AudioEngine :=
  if isValidPadIndex padIndex then
    match e.pads[padIndex.toNat]? with
    | some pad =>
      match pad.loaded, pad.buffer with
      | true, some buffer =>
        let pad' := { pad with trimStart := 0, trimEnd := buffer.duration,
                               gain := AUDIO_CONFIG.DEFAULT_GAIN }
        { e with pads := e.pads.set padIndex.toNat pad' }
      | _, _ => e
    | none => e
  else e

/-- `clearPad(padIndex)`: replaces the slot with a fresh empty pad. -/
def AudioEngine.clearPad (e : AudioEngine) (padIndex : ℤ) : AudioEngine :=
  if isValidPadIndex padIndex then
    { e with pads := e.pads.set padIndex.toNat (AudioEngine.createEmptyPad padIndex.toNat) }
  else e

/-- `loadBuffer(padIndex, buffer, name)`: throws `Invalid pad index` on an
invalid index (modelled as `Except.error` with the engine unchanged); else
replaces the slot's buffer and name, sets `loaded`, resets trim to the full
buffer and gain to the default, and returns the pad. -/
def AudioEngine.loadBuffer (e : AudioEngine) (padIndex : ℤ) (buffer : AudioBuffer)
    (name : String) : AudioEngine × Except String Pad :=
  if isValidPadIndex padIndex then
    match e.pads[padIndex.toNat]? with
    | some pad =>
      let pad' :=
        { pad with buffer := some buffer,
                   name := name,
                   loaded := true,
                   trimStart := 0,
                   trimEnd := buffer.duration,
                   gain := AUDIO_CONFIG.DEFAULT_GAIN }
      ({ e with pads := e.pads.set padIndex.toNat pad' }, Except.ok pad')
    | none => (e, Except.error ("TypeError"))
  else (e, Except.error ("Invalid pad index: " ++ toString padIndex))

/-- The observable effect of `source.start(0, clampedStart, clampedEnd - clampedStart)`
together with the gain-node value: which region of which buffer plays, at
which gain. -/
structure PlayEvent where
  buffer : AudioBuffer
  gain : ℚ
  offset : ℚ
  duration : ℚ
deriving Repr, DecidableEq

/-- `playBuffer(buffer, startTime, endTime, gain)`: `none` when the context or
master gain is missing; otherwise clamps the start into `[0, duration]`, the
end into `[clampedStart, duration]`, and starts playback of that region. -/
def AudioEngine.playBuffer (e : AudioEngine) (buffer : AudioBuffer)
    (startTime endTime gain : ℚ) : Option PlayEvent :=
  if e.ctx && e.masterGain then
    let clampedStart := max 0 (min startTime buffer.duration)
    let clampedEnd := max clampedStart (min endTime buffer.duration)
    some { buffer := buffer, gain := gain, offset := clampedStart,
           duration := clampedEnd - clampedStart }
  else none

/-- `play(padIndex)`: warns and does nothing (`none`) when the engine is not
initialized, the index is invalid, or the pad is unloaded; otherwise plays the
pad's buffer over its trim region at its gain. -/
def AudioEngine.play (e : AudioEngine) (padIndex : ℤ) : Option PlayEvent :=
  if e.ctx && e.masterGain then
    if isValidPadIndex padIndex then
      match e.pads[padIndex.toNat]? with
      | some pad =>
        match pad.loaded, pad.buffer with
        | true, some buffer => e.playBuffer buffer pad.trimStart pad.trimEnd pad.gain
        | _, _ => none
      | none => none
    else none
  else none

/-- `setTrimPoints(padIndex, startTime, endTime)`: no-op on an invalid index or
an unloaded pad; else stores `trimStart = max(0, startTime)` and
`trimEnd = min(buffer.duration, endTime)`. -/
def AudioEngine.setTrimPoints (e : AudioEngine) (padIndex : ℤ)
    (startTime endTime : ℚ) : AudioEngine :=
  if isValidPadIndex padIndex then
    match e.pads[padIndex.toNat]? with
    | some pad =>
      match pad.loaded, pad.buffer with
      | true, some buffer =>
        let pad' := { pad with trimStart := max 0 startTime,
                               trimEnd := min buffer.duration endTime }
        { e with pads := e.pads.set padIndex.toNat pad' }
      | _, _ => e
    | none => e
  else e

/-- `setGain(padIndex, gain)`: clamps the gain into `[MIN_GAIN, MAX_GAIN]`. -/
def AudioEngine.setGain (e : AudioEngine) (padIndex : ℤ) (gain : ℚ) : AudioEngine :=
  if isValidPadIndex padIndex then
    match e.pads[padIndex.toNat]? with
    | some pad =>
      let pad' := { pad with gain := max AUDIO_CONFIG.MIN_GAIN (min AUDIO_CONFIG.MAX_GAIN gain) }
      { e with pads := e.pads.set padIndex.toNat pad' }
    | none => e
  else e

/-- `Math.abs(q)`. -/
def jsAbs (q : ℚ) : ℚ :=
  if q < 0 then -q else q

lemma jsAbs_eq_abs (q : ℚ) : jsAbs q = |q| := by
  unfold jsAbs
  split_ifs with h
  · rw [abs_of_neg h]
  · rw [abs_of_nonneg (not_lt.mp h)]

/-- Loop state of `detectSoundSegments`: the `isInSound` flag, the index of the
first loud sample of the open region (`soundStart`), the index of the most
recent loud sample (`silenceStart`), and the segments pushed so far. -/
structure DetectState where
  isInSound : Bool
  soundStart : ℚ
  silenceStart : ℚ
  segments : List SoundSegment
deriving Repr, DecidableEq

/-- One iteration of the scan loop of `detectSoundSegments`, at sample index
`i` with amplitude `a`. -/
def detectStep (silenceThreshold minSilenceSamples minSoundSamples : ℚ)
    (sampleRate : ℚ) (st : DetectState) (i : ℚ) (a : ℚ) : DetectState :=
  if jsAbs a > silenceThreshold then
    if st.isInSound then { st with silenceStart := i }
    else { st with isInSound := true, soundStart := i, silenceStart := i }
  else if st.isInSound ∧ minSilenceSamples ≤ i - st.silenceStart then
    let segmentLength : ℚ := st.silenceStart - st.soundStart
    if minSoundSamples ≤ segmentLength then
      { st with isInSound := false,
                segments := st.segments ++
                  [{ start := st.soundStart / sampleRate,
                     stop := st.silenceStart / sampleRate }] }
    else { st with isInSound := false }
  else st

/-- The `for` loop of `detectSoundSegments`, scanning `data` from index `i`. -/
def detectLoop (silenceThreshold minSilenceSamples minSoundSamples : ℚ)
    (sampleRate : ℚ) : ℚ → List ℚ → DetectState → DetectState
  | _, [], st => st
  | i, a :: rest, st =>
    detectLoop silenceThreshold minSilenceSamples minSoundSamples sampleRate
      (i + 1) rest
      (detectStep silenceThreshold minSilenceSamples minSoundSamples sampleRate st i a)

/-- `data.length` read as a JavaScript number. -/
def ratLength (l : List ℚ) : ℚ :=
  l.foldr (fun _ n => n + 1) 0

/-- `detectSoundSegments(buffer, silenceThreshold, minSilenceDuration,
minSoundDuration)`: scans channel 0 and returns the non-silent segments in
seconds. -/
def detectSoundSegments (buffer : AudioBuffer)
    (silenceThreshold minSilenceDuration minSoundDuration : ℚ) : List SoundSegment :=
  let data := buffer.getChannelData 0
  let sampleRate := buffer.sampleRate
  let minSilenceSamples := minSilenceDuration * sampleRate
  let minSoundSamples := minSoundDuration * sampleRate
  let final := detectLoop silenceThreshold minSilenceSamples minSoundSamples sampleRate
    0 data { isInSound := false, soundStart := 0, silenceStart := 0, segments := [] }
  if final.isInSound ∧ minSoundSamples ≤ ratLength data - final.soundStart then
    final.segments ++
      [{ start := final.soundStart / sampleRate,
         stop := ratLength data / sampleRate }]
  else final.segments

/-- Read of `sourceData[idx]` for an integer index: out-of-range reads yield
`undefined` in JavaScript (stored as NaN); they are modelled as `0` here and
never inspected by any claim. -/
def readSample (data : List ℚ) (idx : ℤ) : ℚ :=
  if 0 ≤ idx then data.getD idx.toNat 0 else 0

/-- `extractBufferSegment(buffer, segment)`: `floor`s the segment bounds to
sample indices; a non-positive sample length yields `null`, else a fresh
buffer with the copied sample window. -/
def extractBufferSegment (buffer : AudioBuffer) (segment : SoundSegment) :
    Option AudioBuffer :=
  let startSample : ℤ := ⌊segment.start * buffer.sampleRate⌋
  let endSample : ℤ := ⌊segment.stop * buffer.sampleRate⌋
  let length : ℤ := endSample - startSample
  if length ≤ 0 then none
  else some
    { numberOfChannels := buffer.numberOfChannels
      length := length.toNat
      sampleRate := buffer.sampleRate
      channelData := (List.range buffer.numberOfChannels).map fun channel =>
        (List.range length.toNat).map fun i =>
          readSample (buffer.getChannelData channel) (startSample + (i : ℤ)) }

/-- `splitBuffer(buffer, segments)`: requires an initialized engine (throws
otherwise); maps `extractBufferSegment` over the segments and keeps the
non-`null` results. -/
def AudioEngine.splitBuffer (e : AudioEngine) (buffer : AudioBuffer)
    (segments : List SoundSegment) : Except String (List AudioBuffer) :=
  if e.ctx then
    Except.ok (((segments.map (extractBufferSegment buffer)).filterMap id))
  else Except.error ("AudioEngine not initialized")

/-- JavaScript number-to-integer truncation (toward zero), as performed by
`DataView.setInt16` before reduction modulo `2^16`. -/
def jsTruncate (q : ℚ) : ℤ :=
  if q < 0 then ⌈q⌉ else ⌊q⌋

/-- Little-endian bytes of `DataView.setUint16`. -/
def writeUint16LE (n : ℕ) : List ℕ :=
  [n % 256, n / 256 % 256]

/-- Little-endian bytes of `DataView.setUint32`. -/
def writeUint32LE (n : ℕ) : List ℕ :=
  [n % 256, n / 256 % 256, n / 256 ^ 2 % 256, n / 256 ^ 3 % 256]

/-- JavaScript `ToUint32` of a number, as applied by `DataView.setUint32`. -/
def jsToUint32 (q : ℚ) : ℕ :=
  (jsTruncate q % 4294967296).toNat

/-- The `writeString` helper of `audioBufferToWav`: ASCII char codes. -/
def writeStringBytes (s : String) : List ℕ :=
  s.toList.map Char.toNat

/-- Little-endian bytes of `DataView.setInt16`. -/
def setInt16LE (q : ℚ) : List ℕ :=
  writeUint16LE ((jsTruncate q % 65536).toNat)

/-- `audioBufferToWav(buffer)`: the byte content of the produced WAV blob —
the 44-byte RIFF/WAVE/fmt /data header followed by the interleaved 16-bit
PCM samples. -/
def audioBufferToWav (buffer : AudioBuffer) : List ℕ :=
  let numChannels := buffer.numberOfChannels
  let sampleRate := buffer.sampleRate
  let length := buffer.length * numChannels * 2
  writeStringBytes ("RIFF") ++
  writeUint32LE (36 + length) ++
  writeStringBytes ("WAVE") ++
  writeStringBytes ("fmt ") ++
  writeUint32LE 16 ++
  writeUint16LE 1 ++
  writeUint16LE numChannels ++
  writeUint32LE (jsToUint32 sampleRate) ++
  writeUint32LE (jsToUint32 (sampleRate * (numChannels : ℚ) * 2)) ++
  writeUint16LE (numChannels * 2) ++
  writeUint16LE 16 ++
  writeStringBytes ("data") ++
  writeUint32LE length ++
  (List.range buffer.length).flatMap fun i =>
    (List.range numChannels).flatMap fun ch =>
      let sample := max (-1) (min 1 ((buffer.getChannelData ch).getD i 0))
      let intSample := if sample < 0 then sample * 0x8000 else sample * 0x7fff
      setInt16LE intSample

/-- Little-endian decode of two bytes at `offset`. -/
def readUint16LE (bytes : List ℕ) (offset : ℕ) : ℕ :=
  bytes.getD offset 0 + 256 * bytes.getD (offset + 1) 0

/-- Little-endian decode of four bytes at `offset`. -/
def readUint32LE (bytes : List ℕ) (offset : ℕ) : ℕ :=
  bytes.getD offset 0 + 256 * bytes.getD (offset + 1) 0 +
    256 ^ 2 * bytes.getD (offset + 2) 0 + 256 ^ 3 * bytes.getD (offset + 3) 0

/-- One trim bar of `TrimbarsDrawer`: pixel position plus display flags. -/
structure TrimBar where
  x : ℚ
  color : String
  selectedColor : String
  selected : Bool
  dragged : Bool
deriving Repr, DecidableEq

/-- `TrimbarsDrawer` state over its canvas. -/
structure TrimbarsDrawer where
  canvasWidth : ℚ
  canvasHeight : ℚ
  leftTrimBar : TrimBar
  rightTrimBar : TrimBar
deriving Repr, DecidableEq

/-- Pointer position in canvas coordinates. -/
structure MousePos where
  x : ℚ
  y : ℚ
deriving Repr, DecidableEq

/-- `distance(x1, y1, x2, y2) < bound` for a non-negative bound, expressed on
squares so it stays within exact rational arithmetic. -/
def distanceLt (x1 y1 x2 y2 bound : ℚ) : Prop :=
  (x2 - x1) ^ 2 + (y2 - y1) ^ 2 < bound ^ 2

instance (x1 y1 x2 y2 bound : ℚ) : Decidable (distanceLt x1 y1 x2 y2 bound) :=
  inferInstanceAs (Decidable (_ < _))

/-- `highLightTrimBarsWhenClose(mousePos)`: hit-tests the left bar first, then
the right bar against the *updated* left selection, so at most one bar is
selected. -/
def TrimbarsDrawer.highLightTrimBarsWhenClose (d : TrimbarsDrawer) (mousePos : MousePos) :
    TrimbarsDrawer :=
  let left :=
    if distanceLt mousePos.x mousePos.y d.leftTrimBar.x 18 25 ∧ ¬d.rightTrimBar.selected then
      { d.leftTrimBar with color := d.leftTrimBar.selectedColor, selected := true }
    else
      { d.leftTrimBar with color := "#00ff00", selected := false }
  let right :=
    if distanceLt mousePos.x mousePos.y d.rightTrimBar.x 18 25 ∧ ¬left.selected then
      { d.rightTrimBar with color := d.rightTrimBar.selectedColor, selected := true }
    else
      { d.rightTrimBar with color := "#00ff00", selected := false }
  { d with leftTrimBar := left, rightTrimBar := right }

/-- `startDrag()`: marks each currently selected bar as dragged. -/
def TrimbarsDrawer.startDrag (d : TrimbarsDrawer) : TrimbarsDrawer :=
  let left := if d.leftTrimBar.selected then { d.leftTrimBar with dragged := true }
              else d.leftTrimBar
  let right := if d.rightTrimBar.selected then { d.rightTrimBar with dragged := true }
               else d.rightTrimBar
  { d with leftTrimBar := left, rightTrimBar := right }

/-- `stopDrag()`: clears the flags of a dragged bar and snaps it onto the
other bar if it ended up on the wrong side; the left bar is finalized first,
and the right bar is then compared against the updated left position. -/
def TrimbarsDrawer.stopDrag (d : TrimbarsDrawer) : TrimbarsDrawer :=
  let d1 :=
    if d.leftTrimBar.dragged then
      let l := { d.leftTrimBar with dragged := false, selected := false }
      let l := if d.rightTrimBar.x < l.x then { l with x := d.rightTrimBar.x } else l
      { d with leftTrimBar := l }
    else d
  if d1.rightTrimBar.dragged then
    let r := { d1.rightTrimBar with dragged := false, selected := false }
    let r := if r.x < d1.leftTrimBar.x then { r with x := d1.leftTrimBar.x } else r
    { d1 with rightTrimBar := r }
  else d1

/-- `moveTrimBars(mousePos)`: re-runs hit-testing, clamps the pointer X into
`[0, canvas.width]`, moves a dragged left bar only if it stays strictly left
of the right bar, then moves a dragged right bar only if it stays strictly
right of the (possibly just-updated) left bar. -/
def TrimbarsDrawer.moveTrimBars (d : TrimbarsDrawer) (mousePos : MousePos) :
    TrimbarsDrawer :=
  let d := d.highLightTrimBarsWhenClose mousePos
  let clampedX := max 0 (min mousePos.x d.canvasWidth)
  let d :=
    if d.leftTrimBar.dragged ∧ clampedX < d.rightTrimBar.x then
      { d with leftTrimBar := { d.leftTrimBar with x := clampedX } }
    else d
  if d.rightTrimBar.dragged ∧ d.leftTrimBar.x < clampedX then
    { d with rightTrimBar := { d.rightTrimBar with x := clampedX } }
  else d

/-- Folding a list of `setTrimPoints(index, start, end)` calls over the engine. -/
def applySetTrimCalls (e : AudioEngine) (calls : List (ℤ × ℚ × ℚ)) : AudioEngine :=
  calls.foldl (fun acc c => acc.setTrimPoints c.1 c.2.1 c.2.2) e

/-- The trim facts about slot `i` that every single `setTrimPoints` call
re-establishes: the slot stays loaded with its buffer and satisfies
`0 ≤ trimStart` and `trimEnd ≤ buffer.duration`. -/
def TrimSlotInv (e : AudioEngine) (i : ℕ) (buf : AudioBuffer) : Prop :=
  ∃ pad, e.pads[i]? = some pad ∧ pad.loaded = true ∧ pad.buffer = some buf ∧
    0 ≤ pad.trimStart ∧ pad.trimEnd ≤ buf.duration

lemma setTrimPoints_slotInv (e : AudioEngine) (i : ℕ) (buf : AudioBuffer)
    (j : ℤ) (s t : ℚ) (h : TrimSlotInv e i buf) :
    TrimSlotInv (e.setTrimPoints j s t) i buf := by
  obtain ⟨pad, hget, hloaded, hbuf, hs, ht⟩ := h
  unfold AudioEngine.setTrimPoints
  split_ifs with hval
  · cases hj : e.pads[j.toNat]? with
    | none => simp only [hj]; exact ⟨pad, hget, hloaded, hbuf, hs, ht⟩
    | some padj =>
      simp only [hj]
      cases hjl : padj.loaded with
      | false => simp only [hjl]; exact ⟨pad, hget, hloaded, hbuf, hs, ht⟩
      | true =>
        cases hjb : padj.buffer with
        | none => simp only [hjl, hjb]; exact ⟨pad, hget, hloaded, hbuf, hs, ht⟩
        | some bufj =>
          simp only [hjl, hjb]
          by_cases hij : j.toNat = i
          · subst hij
            rw [hget] at hj
            cases hj
            rw [hbuf] at hjb
            cases hjb
            refine ⟨_, List.getElem?_set_self ?_, rfl, rfl, le_max_left 0 s, min_le_left _ _⟩
            rw [List.getElem?_eq_some] at hget
            exact hget.1
          · exact ⟨pad, by rw [List.getElem?_set_ne hij]; exact hget, hloaded, hbuf, hs, ht⟩
  · exact ⟨pad, hget, hloaded, hbuf, hs, ht⟩

lemma applySetTrimCalls_slotInv (calls : List (ℤ × ℚ × ℚ)) (e : AudioEngine)
    (i : ℕ) (buf : AudioBuffer) (h : TrimSlotInv e i buf) :
    TrimSlotInv (applySetTrimCalls e calls) i buf := by
  induction calls generalizing e with
  | nil => exact h
  | cons c rest ih => exact ih _ (setTrimPoints_slotInv _ _ _ _ _ _ h)

lemma setTrimPoints_getPad (e : AudioEngine) (i : ℤ) (pad : Pad) (buf : AudioBuffer)
    (s t : ℚ) (hval : isValidPadIndex i) (hget : e.pads[i.toNat]? = some pad)
    (hloaded : pad.loaded = true) (hbuf : pad.buffer = some buf) :
    (e.setTrimPoints i s t).getPad i =
      some { pad with trimStart := max 0 s, trimEnd := min buf.duration t } := by
  have hlt : i.toNat < e.pads.length := (List.getElem?_eq_some.mp hget).1
  unfold AudioEngine.setTrimPoints AudioEngine.getPad
  rw [if_pos hval]
  simp only [hget, hloaded, hbuf]
  rw [if_pos hval]
  exact List.getElem?_set_self (by simpa using hlt)

/-- Claim C1 (corrected): loading a pad and then running any sequence of
`setTrimPoints` calls (at any indices, with any rational arguments) leaves the
pad loaded with its buffer and satisfying `0 ≤ trimStart` and
`trimEnd ≤ buffer.duration`.  The source clamps `startTime` only from below and
`endTime` only from above, so `trimStart ≤ trimEnd` (and `trimStart ≤ duration`,
`0 ≤ trimEnd`) are not guaranteed — see the counterexample. -/
theorem setTrim_invariant_amended (e : AudioEngine) (i : ℤ) (buf : AudioBuffer)
    (name : String) (calls : List (ℤ × ℚ × ℚ))
    (hval : 0 ≤ i ∧ i < 16) (hlen : e.pads.length = 16) :
    ∃ pad, (applySetTrimCalls (e.loadBuffer i buf name).1 calls).getPad i = some pad ∧
      pad.loaded = true ∧ pad.buffer = some buf ∧
      0 ≤ pad.trimStart ∧ pad.trimEnd ≤ buf.duration := by
  have hvalid : isValidPadIndex i := hval
  have hlt : i.toNat < e.pads.length := by
    rw [hlen]; omega
  obtain ⟨pad0, hpad0⟩ : ∃ p, e.pads[i.toNat]? = some p :=
    ⟨_, List.getElem?_eq_getElem hlt⟩
  have hload : TrimSlotInv (e.loadBuffer i buf name).1 i.toNat buf := by
    unfold AudioEngine.loadBuffer
    rw [if_pos hvalid, hpad0]
    exact ⟨_, List.getElem?_set_self hlt, rfl, rfl, le_refl 0, le_refl _⟩
  obtain ⟨pad, hget, hrest⟩ := applySetTrimCalls_slotInv calls _ i.toNat buf hload
  refine ⟨pad, ?_, hrest⟩
  unfold AudioEngine.getPad
  rw [if_pos hvalid]
  exact hget

/-- Claim C1 (counterexample): on a pad of duration `2`, the single call
`setTrimPoints(0, 3/2, 1/2)` stores `trimStart = 3/2 > trimEnd = 1/2`, so the
claimed invariant `trimStart ≤ trimEnd` fails — `setTrimPoints` does not
re-clamp `end` against the clamped `start`. -/
theorem setTrim_invariant_cex :
    ((AudioEngine.initEngine.loadBuffer 0 (createBuffer 1 2 1) ("snd")).1.setTrimPoints
        0 (3/2) (1/2)).getPad 0 =
      some { index := 0, buffer := some (createBuffer 1 2 1), name := "snd",
             loaded := true, trimStart := 3/2, trimEnd := 1/2, gain := 1 } ∧
    ¬((3 : ℚ)/2 ≤ 1/2) := by
  constructor
  · have hget : (AudioEngine.initEngine.loadBuffer 0 (createBuffer 1 2 1) ("snd")).1.pads[(0:ℤ).toNat]? =
        some { index := 0, buffer := some (createBuffer 1 2 1), name := "snd",
               loaded := true, trimStart := 0, trimEnd := (createBuffer 1 2 1).duration,
               gain := 1 } := rfl
    rw [setTrimPoints_getPad _ 0 _ (createBuffer 1 2 1) _ _ (by decide) hget rfl rfl]
    have h1 : max (0:ℚ) (3/2) = 3/2 := by norm_num
    have h2 : min (createBuffer 1 2 1).duration (1/2) = 1/2 := by
      norm_num [createBuffer, AudioBuffer.duration]
    rw [h1, h2]
  · norm_num

/-- Claim C1 witness: a concrete load followed by one `setTrimPoints` call. -/
theorem setTrim_invariant_amended_witness :
    ∃ pad, (applySetTrimCalls
        (AudioEngine.initEngine.loadBuffer 2 (createBuffer 1 2 1) ("tom")).1
        [(2, 5, -3)]).getPad 2 = some pad ∧ pad.loaded = true ∧
      pad.buffer = some (createBuffer 1 2 1) ∧ 0 ≤ pad.trimStart ∧
      pad.trimEnd ≤ (createBuffer 1 2 1).duration :=
  setTrim_invariant_amended AudioEngine.initEngine 2 (createBuffer 1 2 1) ("tom")
    [(2, 5, -3)] (by decide) rfl

/-- Claim C9: `setTrimPoints(3, -1, 100)` on a loaded pad whose buffer lasts
`2` seconds stores `trimStart = 0` and `trimEnd = 2`. -/
theorem setTrimPoints_clamp_scenario (e : AudioEngine) (pad : Pad) (buf : AudioBuffer)
    (hget : e.pads[(3:ℤ).toNat]? = some pad) (hloaded : pad.loaded = true)
    (hbuf : pad.buffer = some buf) (hdur : buf.duration = 2) :
    (e.setTrimPoints 3 (-1) 100).getPad 3 =
      some { pad with trimStart := 0, trimEnd := 2 } := by
  rw [setTrimPoints_getPad e 3 pad buf (-1) 100 (by decide) hget hloaded hbuf, hdur]
  rw [show max (0:ℚ) (-1) = 0 by norm_num, show min (2:ℚ) 100 = 2 by norm_num]

/-- Claim C9 witness: the scenario run on a concretely loaded engine. -/
theorem setTrimPoints_clamp_scenario_witness :
    ((AudioEngine.initEngine.loadBuffer 3 (createBuffer 1 2 1) ("kick")).1.setTrimPoints
        3 (-1) 100).getPad 3 =
      some { index := 3, buffer := some (createBuffer 1 2 1), name := "kick",
             loaded := true, trimStart := 0, trimEnd := 2, gain := 1 } :=
  setTrimPoints_clamp_scenario _
    { index := 3, buffer := some (createBuffer 1 2 1), name := "kick",
      loaded := true, trimStart := 0, trimEnd := (createBuffer 1 2 1).duration, gain := 1 }
    (createBuffer 1 2 1) rfl rfl rfl (by norm_num [createBuffer, AudioBuffer.duration])

/-- Claim C5: `loadBuffer` on an index outside `[0, 16)` reports the
invalid index and modifies no pad slot (the engine is returned unchanged). -/
theorem loadBuffer_invalid_index (e : AudioEngine) (padIndex : ℤ)
    (buffer : AudioBuffer) (name : String) (hinv : ¬ isValidPadIndex padIndex) :
    e.loadBuffer padIndex buffer name =
      (e, Except.error ("Invalid pad index: " ++ toString padIndex)) := by
  unfold AudioEngine.loadBuffer
  rw [if_neg hinv]

/-- Claim C5 witness: `loadBuffer(20, ...)` on the freshly initialized engine. -/
theorem loadBuffer_invalid_index_witness :
    AudioEngine.initEngine.loadBuffer 20 (createBuffer 1 2 1) ("x") =
      (AudioEngine.initEngine, Except.error ("Invalid pad index: " ++ toString (20:ℤ))) :=
  loadBuffer_invalid_index AudioEngine.initEngine 20 (createBuffer 1 2 1) ("x") (by decide)

/-- Claim C10: on an engine with its 16 slots, `getPad` is total — it returns
the stored pad record exactly when `0 ≤ index < 16` and `null` otherwise. -/
theorem getPad_total (e : AudioEngine) (i : ℤ)
    (hlen : e.pads.length = AUDIO_CONFIG.MAX_PADS) :
    (0 ≤ i ∧ i < 16 → ∃ pad, e.getPad i = some pad ∧ e.pads[i.toNat]? = some pad) ∧
    (¬(0 ≤ i ∧ i < 16) → e.getPad i = none) := by
  have hmax : ((AUDIO_CONFIG.MAX_PADS : ℕ) : ℤ) = 16 := rfl
  constructor
  · intro hi
    have hval : isValidPadIndex i := ⟨hi.1, by rw [hmax]; exact hi.2⟩
    have hlt : i.toNat < e.pads.length := by
      rw [hlen]
      show i.toNat < 16
      omega
    refine ⟨_, ?_, List.getElem?_eq_getElem hlt⟩
    unfold AudioEngine.getPad
    rw [if_pos hval]
    exact List.getElem?_eq_getElem hlt
  · intro hi
    have hval : ¬ isValidPadIndex i := by
      intro h
      refine hi ⟨h.1, ?_⟩
      have h2 := h.2
      rw [hmax] at h2
      exact h2
    unfold AudioEngine.getPad
    rw [if_neg hval]

/-- Claim C10 witness: instantiated at index `5` on the fresh engine. -/
theorem getPad_total_witness :
    (0 ≤ (5:ℤ) ∧ (5:ℤ) < 16 → ∃ pad, AudioEngine.initEngine.getPad 5 = some pad ∧
      AudioEngine.initEngine.pads[(5:ℤ).toNat]? = some pad) ∧
    (¬(0 ≤ (5:ℤ) ∧ (5:ℤ) < 16) → AudioEngine.initEngine.getPad 5 = none) :=
  getPad_total AudioEngine.initEngine 5 rfl

/-- A 3-second mono buffer at 10 samples per second whose samples exceed the
`2/100` threshold exactly at the sample times in `[0.5 s, 1.2 s]` (indices
`5..12`) and `[2.0 s, 2.8 s]` (indices `20..28`) and are `0` elsewhere. -/
def syntheticTwoBurstBuffer : AudioBuffer :=
  { numberOfChannels := 1, length := 30, sampleRate := 10,
    channelData := [[0, 0, 0, 0, 0,
                     1/2, 1/2, 1/2, 1/2, 1/2, 1/2, 1/2, 1/2,
                     0, 0, 0, 0, 0, 0, 0,
                     1/2, 1/2, 1/2, 1/2, 1/2, 1/2, 1/2, 1/2, 1/2,
                     0]] }

/-- Claim C2: with threshold `2/100`, `minSilenceDuration = 1/10` and
`minSoundDuration = 5/100`, `detectSoundSegments` on the synthetic two-burst
buffer returns exactly `[{0.5, 1.2}, {2.0, 2.8}]`, each segment ending at the
last loud sample. -/
theorem detectSoundSegments_scenario :
    detectSoundSegments syntheticTwoBurstBuffer (2/100) (1/10) (5/100) =
      [{ start := 1/2, stop := 6/5 }, { start := 2, stop := 14/5 }] := by
  norm_num [detectSoundSegments, detectLoop, detectStep, jsAbs, ratLength,
    AudioBuffer.getChannelData, syntheticTwoBurstBuffer]

/-- Claim C6: the `play` contract — `play(index)` is a no-op (with a warning)
when the engine is not initialized, the index is invalid, or the pad is
unloaded; otherwise it starts the pad's buffer over its trim region at the
pad's gain, with start clamped into `[0, duration]` and end clamped into
`[clampedStart, duration]`; and after `loadBuffer(5, bufferOfDuration(3), "kick")`,
`play(5)` plays `[0, 3]` at gain `1`. -/
theorem play_contract :
    (∀ (e : AudioEngine) (i : ℤ), e.ctx = false ∨ e.masterGain = false →
      e.play i = none) ∧
    (∀ (e : AudioEngine) (i : ℤ), ¬ isValidPadIndex i → e.play i = none) ∧
    (∀ (e : AudioEngine) (i : ℤ) (pad : Pad), e.pads[i.toNat]? = some pad →
      pad.loaded = false ∨ pad.buffer = none → e.play i = none) ∧
    (∀ (e : AudioEngine) (i : ℤ) (pad : Pad) (buf : AudioBuffer),
      e.ctx = true → e.masterGain = true → isValidPadIndex i →
      e.pads[i.toNat]? = some pad → pad.loaded = true → pad.buffer = some buf →
      e.play i = some { buffer := buf, gain := pad.gain,
                        offset := max 0 (min pad.trimStart buf.duration),
                        duration := max (max 0 (min pad.trimStart buf.duration))
                            (min pad.trimEnd buf.duration) -
                          max 0 (min pad.trimStart buf.duration) }) ∧
    (∀ (e : AudioEngine) (buf : AudioBuffer), e.ctx = true → e.masterGain = true →
      e.pads.length = 16 → buf.duration = 3 →
      ((e.loadBuffer 5 buf ("kick")).1.play 5) =
        some { buffer := buf, gain := 1, offset := 0, duration := 3 }) := by
  have hd : ∀ (e : AudioEngine) (i : ℤ) (pad : Pad) (buf : AudioBuffer),
      e.ctx = true → e.masterGain = true → isValidPadIndex i →
      e.pads[i.toNat]? = some pad → pad.loaded = true → pad.buffer = some buf →
      e.play i = some { buffer := buf, gain := pad.gain,
                        offset := max 0 (min pad.trimStart buf.duration),
                        duration := max (max 0 (min pad.trimStart buf.duration))
                            (min pad.trimEnd buf.duration) -
                          max 0 (min pad.trimStart buf.duration) } := by
    intro e i pad buf hc hm hval hget hld hbuf
    unfold AudioEngine.play AudioEngine.playBuffer
    simp only [hc, hm, Bool.and_self, if_true, if_pos hval, hget, hld, hbuf]
  refine ⟨?_, ?_, ?_, hd, ?_⟩
  · intro e i h
    unfold AudioEngine.play
    rcases h with h | h <;> simp [h]
  · intro e i h
    unfold AudioEngine.play
    cases hcm : (e.ctx && e.masterGain)
    · simp
    · simp [h]
  · intro e i pad hget hbad
    unfold AudioEngine.play
    cases hcm : (e.ctx && e.masterGain)
    · simp
    · by_cases hval : isValidPadIndex i
      · simp only [if_pos hval, if_true, hget]
        rcases hbad with hl | hb
        · rw [hl]
        · cases hl : pad.loaded
          · rfl
          · rw [hb]
      · simp [hval]
  · intro e buf hc hm hlen hdur
    have hlt : (5:ℤ).toNat < e.pads.length := by rw [hlen]; norm_num
    obtain ⟨pad0, hpad0⟩ : ∃ p, e.pads[(5:ℤ).toNat]? = some p :=
      ⟨_, List.getElem?_eq_getElem hlt⟩
    have hpads : (e.loadBuffer 5 buf ("kick")).1.pads[(5:ℤ).toNat]? =
        some { pad0 with buffer := some buf, name := "kick", loaded := true,
                         trimStart := 0, trimEnd := buf.duration,
                         gain := AUDIO_CONFIG.DEFAULT_GAIN } := by
      unfold AudioEngine.loadBuffer
      rw [if_pos (by decide : isValidPadIndex 5), hpad0]
      exact List.getElem?_set_self (by simpa using hlt)
    have hctx : (e.loadBuffer 5 buf ("kick")).1.ctx = e.ctx := by
      unfold AudioEngine.loadBuffer
      rw [if_pos (by decide : isValidPadIndex 5), hpad0]
    have hmg : (e.loadBuffer 5 buf ("kick")).1.masterGain = e.masterGain := by
      unfold AudioEngine.loadBuffer
      rw [if_pos (by decide : isValidPadIndex 5), hpad0]
    rw [hd _ 5 _ buf (hctx.trans hc) (hmg.trans hm) (by decide) hpads rfl rfl]
    simp only [hdur]
    norm_num [AUDIO_CONFIG]

/-- Claim C6 witness: the scenario on a concrete engine and 3-second buffer. -/
theorem play_contract_witness :
    ((AudioEngine.initEngine.loadBuffer 5 (createBuffer 1 3 1) ("kick")).1.play 5) =
      some { buffer := createBuffer 1 3 1, gain := 1, offset := 0, duration := 3 } :=
  play_contract.2.2.2.2 AudioEngine.initEngine (createBuffer 1 3 1) rfl rfl rfl
    (by norm_num [createBuffer, AudioBuffer.duration])

/-- A mono buffer with `frameCount = 1000` and `sampleRate = 44100`, with
arbitrary channel data. -/
def monoBuffer1000 (cd : List (List ℚ)) : AudioBuffer :=
  { numberOfChannels := 1, length := 1000, sampleRate := 44100, channelData := cd }

/-- The 44 header bytes produced for `monoBuffer1000`: `RIFF`, ChunkSize 2036,
`WAVE`, `fmt `, fmt-size 16, PCM format 1, 1 channel, rate 44100, ByteRate
88200, BlockAlign 2, 16 bits, `data`, Subchunk2Size 2000 — all little-endian. -/
def wavHeader1000 : List ℕ :=
  [82, 73, 70, 70, 244, 7, 0, 0, 87, 65, 86, 69, 102, 109, 116, 32,
   16, 0, 0, 0, 1, 0, 1, 0, 68, 172, 0, 0, 136, 88, 1, 0,
   2, 0, 16, 0, 100, 97, 116, 97, 208, 7, 0, 0]

lemma audioBufferToWav_monoBuffer1000_split (cd : List (List ℚ)) :
    audioBufferToWav (monoBuffer1000 cd) =
      wavHeader1000 ++ (List.range 1000).flatMap (fun i =>
        (List.range 1).flatMap fun ch =>
          let sample := max (-1) (min 1 (((monoBuffer1000 cd).getChannelData ch).getD i 0))
          let intSample := if sample < 0 then sample * 0x8000 else sample * 0x7fff
          setInt16LE intSample) := by
  have hsr : jsToUint32 (monoBuffer1000 cd).sampleRate = 44100 := by
    norm_num [monoBuffer1000, jsToUint32, jsTruncate]
    rfl
  have hbr : jsToUint32 ((monoBuffer1000 cd).sampleRate *
      ((monoBuffer1000 cd).numberOfChannels : ℚ) * 2) = 88200 := by
    norm_num [monoBuffer1000, jsToUint32, jsTruncate]
    rfl
  simp only [audioBufferToWav, hsr, hbr]
  norm_num [writeStringBytes, writeUint32LE, writeUint16LE, wavHeader1000, monoBuffer1000]
  decide

lemma flatMap_length_two {α : Type} (f : α → List ℕ) (h : ∀ a, (f a).length = 2)
    (l : List α) : (l.flatMap f).length = 2 * l.length := by
  induction l with
  | nil => simp
  | cons a t ih =>
    simp only [List.flatMap_cons, List.length_append, h, ih, List.length_cons]
    ring

lemma readUint32LE_append (l l' : List ℕ) (o : ℕ) (h : o + 3 < l.length) :
    readUint32LE (l ++ l') o = readUint32LE l o := by
  unfold readUint32LE
  rw [List.getD_append _ _ _ _ (by omega), List.getD_append _ _ _ _ (by omega),
    List.getD_append _ _ _ _ (by omega), List.getD_append _ _ _ _ (by omega)]

lemma readUint16LE_append (l l' : List ℕ) (o : ℕ) (h : o + 1 < l.length) :
    readUint16LE (l ++ l') o = readUint16LE l o := by
  unfold readUint16LE
  rw [List.getD_append _ _ _ _ (by omega), List.getD_append _ _ _ _ (by omega)]

/-- Claim C8: encoding a 1-channel buffer with `frameCount = 1000` and
`sampleRate = 44100` yields `44 + 2000` bytes starting with the exact 44-byte
`RIFF`/`WAVE`/`fmt `/`data` header, whose little-endian fields decode to
`ChunkSize = 36 + 2000 = 2036`, `ByteRate = 88200`, `BlockAlign = 2` and
`Subchunk2Size = 2000`. -/
theorem audioBufferToWav_header_exact (cd : List (List ℚ)) :
    (audioBufferToWav (monoBuffer1000 cd)).length = 44 + 2000 ∧
    (audioBufferToWav (monoBuffer1000 cd)).take 44 = wavHeader1000 ∧
    readUint32LE (audioBufferToWav (monoBuffer1000 cd)) 4 = 36 + 2000 ∧
    readUint32LE (audioBufferToWav (monoBuffer1000 cd)) 28 = 88200 ∧
    readUint16LE (audioBufferToWav (monoBuffer1000 cd)) 32 = 2 ∧
    readUint32LE (audioBufferToWav (monoBuffer1000 cd)) 40 = 2000 ∧
    wavHeader1000.take 4 = writeStringBytes ("RIFF") ∧
    (wavHeader1000.drop 8).take 4 = writeStringBytes ("WAVE") ∧
    (wavHeader1000.drop 12).take 4 = writeStringBytes ("fmt ") ∧
    (wavHeader1000.drop 36).take 4 = writeStringBytes ("data") := by
  have hlen2 : ∀ i : ℕ, ((List.range 1).flatMap (fun ch =>
      let sample := max (-1) (min 1 (((monoBuffer1000 cd).getChannelData ch).getD i 0))
      let intSample := if sample < 0 then sample * 0x8000 else sample * 0x7fff
      setInt16LE intSample)).length = 2 := fun i => rfl
  have hdata : ((List.range 1000).flatMap (fun i =>
      (List.range 1).flatMap fun ch =>
        let sample := max (-1) (min 1 (((monoBuffer1000 cd).getChannelData ch).getD i 0))
        let intSample := if sample < 0 then sample * 0x8000 else sample * 0x7fff
        setInt16LE intSample)).length = 2000 := by
    rw [flatMap_length_two _ hlen2]
    simp
  rw [audioBufferToWav_monoBuffer1000_split cd]
  refine ⟨?_, ?_, ?_, ?_, ?_, ?_, rfl, rfl, rfl, rfl⟩
  · rw [List.length_append, hdata]
    rfl
  · rw [show (44:ℕ) = wavHeader1000.length from rfl, List.take_left]
  · rw [readUint32LE_append _ _ _ (by norm_num [wavHeader1000])]
    decide
  · rw [readUint32LE_append _ _ _ (by norm_num [wavHeader1000])]
    decide
  · rw [readUint16LE_append _ _ _ (by norm_num [wavHeader1000])]
    decide
  · rw [readUint32LE_append _ _ _ (by norm_num [wavHeader1000])]
    decide

/-- Claim C8 witness: the header facts at an all-zero 1000-frame buffer. -/
theorem audioBufferToWav_header_exact_witness :
    (audioBufferToWav (monoBuffer1000 [List.replicate 1000 0])).length = 44 + 2000 ∧
    (audioBufferToWav (monoBuffer1000 [List.replicate 1000 0])).take 44 = wavHeader1000 ∧
    readUint32LE (audioBufferToWav (monoBuffer1000 [List.replicate 1000 0])) 4 = 36 + 2000 ∧
    readUint32LE (audioBufferToWav (monoBuffer1000 [List.replicate 1000 0])) 28 = 88200 ∧
    readUint16LE (audioBufferToWav (monoBuffer1000 [List.replicate 1000 0])) 32 = 2 ∧
    readUint32LE (audioBufferToWav (monoBuffer1000 [List.replicate 1000 0])) 40 = 2000 ∧
    wavHeader1000.take 4 = writeStringBytes ("RIFF") ∧
    (wavHeader1000.drop 8).take 4 = writeStringBytes ("WAVE") ∧
    (wavHeader1000.drop 12).take 4 = writeStringBytes ("fmt ") ∧
    (wavHeader1000.drop 36).take 4 = writeStringBytes ("data") :=
  audioBufferToWav_header_exact [List.replicate 1000 0]

/-- JavaScript `Math.round(q)` (half-integers round toward positive infinity). -/
def jsRound (q : ℚ) : ℤ :=
  ⌊q + 1/2⌋

lemma floor_sub_floor_jsRound_bound (a b : ℚ) :
    |(⌊a⌋ - ⌊b⌋) - jsRound (a - b)| ≤ 1 := by
  unfold jsRound
  have h1 : (⌊a⌋ : ℚ) ≤ a := Int.floor_le a
  have h2 : a - 1 < ⌊a⌋ := Int.sub_one_lt_floor a
  have h3 : (⌊b⌋ : ℚ) ≤ b := Int.floor_le b
  have h4 : b - 1 < ⌊b⌋ := Int.sub_one_lt_floor b
  have h5 : (⌊a - b + 1/2⌋ : ℚ) ≤ a - b + 1/2 := Int.floor_le _
  have h6 : a - b + 1/2 - 1 < ⌊a - b + 1/2⌋ := Int.sub_one_lt_floor _
  rw [abs_le]
  constructor
  · by_contra hcon
    push_neg at hcon
    have hz : (⌊a⌋ - ⌊b⌋ - ⌊a - b + 1/2⌋ : ℤ) ≤ -2 := by omega
    have hq : ((⌊a⌋ : ℚ) - ⌊b⌋ - ⌊a - b + 1/2⌋) ≤ -2 := by exact_mod_cast hz
    linarith
  · by_contra hcon
    push_neg at hcon
    have hz : (2 : ℤ) ≤ ⌊a⌋ - ⌊b⌋ - ⌊a - b + 1/2⌋ := by omega
    have hq : (2 : ℚ) ≤ (⌊a⌋ : ℚ) - ⌊b⌋ - ⌊a - b + 1/2⌋ := by exact_mod_cast hz
    linarith

lemma filterMap_extract_length (buffer : AudioBuffer) (segments : List SoundSegment) :
    ((segments.map (extractBufferSegment buffer)).filterMap id).length =
      (segments.filter (fun s =>
        decide (0 < ⌊s.stop * buffer.sampleRate⌋ - ⌊s.start * buffer.sampleRate⌋))).length := by
  induction segments with
  | nil => rfl
  | cons s t ih =>
    simp only [List.map_cons]
    by_cases h : 0 < ⌊s.stop * buffer.sampleRate⌋ - ⌊s.start * buffer.sampleRate⌋
    · obtain ⟨nb, hnb⟩ : ∃ nb, extractBufferSegment buffer s = some nb :=
        ⟨_, by unfold extractBufferSegment; rw [if_neg (not_le.mpr h)]⟩
      rw [hnb]
      rw [show List.filterMap id (some nb :: List.map (extractBufferSegment buffer) t) =
          nb :: List.filterMap id (List.map (extractBufferSegment buffer) t) from rfl]
      rw [List.filter_cons_of_pos (by simpa using h)]
      simp only [List.length_cons, ih]
    · have hnone : extractBufferSegment buffer s = none := by
        unfold extractBufferSegment
        rw [if_pos (not_lt.mp h)]
      rw [hnone]
      rw [show List.filterMap id (none :: List.map (extractBufferSegment buffer) t) =
          List.filterMap id (List.map (extractBufferSegment buffer) t) from rfl]
      rw [List.filter_cons_of_neg (by simpa using h)]
      exact ih

/-- Claim C7: a segment whose computed sample length
`floor(end*sampleRate) - floor(start*sampleRate)` is positive produces a split
buffer of exactly that frame count, which is within one sample of
`round((end-start)*sampleRate)`; a segment with non-positive computed length
produces no buffer, so `splitBuffer` returns one buffer per positive-length
segment and possibly fewer buffers than input segments. -/
theorem splitBuffer_roundTrip :
    (∀ (buffer : AudioBuffer) (segment : SoundSegment),
      0 < ⌊segment.stop * buffer.sampleRate⌋ - ⌊segment.start * buffer.sampleRate⌋ →
      ∃ nb, extractBufferSegment buffer segment = some nb ∧
        (nb.length : ℤ) =
          ⌊segment.stop * buffer.sampleRate⌋ - ⌊segment.start * buffer.sampleRate⌋ ∧
        |(nb.length : ℤ) - jsRound ((segment.stop - segment.start) * buffer.sampleRate)| ≤ 1) ∧
    (∀ (buffer : AudioBuffer) (segment : SoundSegment),
      ⌊segment.stop * buffer.sampleRate⌋ - ⌊segment.start * buffer.sampleRate⌋ ≤ 0 →
      extractBufferSegment buffer segment = none) ∧
    (∀ (e : AudioEngine) (buffer : AudioBuffer) (segments : List SoundSegment),
      e.ctx = true →
      e.splitBuffer buffer segments =
        Except.ok ((segments.map (extractBufferSegment buffer)).filterMap id) ∧
      ((segments.map (extractBufferSegment buffer)).filterMap id).length =
        (segments.filter (fun s =>
          decide (0 < ⌊s.stop * buffer.sampleRate⌋ - ⌊s.start * buffer.sampleRate⌋))).length ∧
      ((segments.map (extractBufferSegment buffer)).filterMap id).length ≤
        segments.length) := by
  refine ⟨?_, ?_, ?_⟩
  · intro buffer segment h
    have hne : ¬(⌊segment.stop * buffer.sampleRate⌋ - ⌊segment.start * buffer.sampleRate⌋ ≤ 0) :=
      not_le.mpr h
    refine ⟨_, by unfold extractBufferSegment; rw [if_neg hne], ?_, ?_⟩
    · exact Int.toNat_of_nonneg (le_of_lt h)
    · rw [Int.toNat_of_nonneg (le_of_lt h), sub_mul]
      exact floor_sub_floor_jsRound_bound _ _
  · intro buffer segment h
    unfold extractBufferSegment
    rw [if_pos h]
  · intro e buffer segments hctx
    refine ⟨?_, filterMap_extract_length buffer segments, ?_⟩
    · unfold AudioEngine.splitBuffer
      rw [hctx]
      rfl
    · calc ((segments.map (extractBufferSegment buffer)).filterMap id).length
          ≤ (segments.map (extractBufferSegment buffer)).length :=
            List.length_filterMap_le _ _
        _ = segments.length := List.length_map _ _

/-- Claim C7 witness: the first part at a 3-second 10 Hz buffer and the
segment `{1/2, 6/5}` (computed length 7), plus the third part on the
initialized engine. -/
theorem splitBuffer_roundTrip_witness :
    (∃ nb, extractBufferSegment (createBuffer 1 30 10) { start := 1/2, stop := 6/5 } =
        some nb ∧
      (nb.length : ℤ) = ⌊(6/5 : ℚ) * (createBuffer 1 30 10).sampleRate⌋ -
        ⌊(1/2 : ℚ) * (createBuffer 1 30 10).sampleRate⌋ ∧
      |(nb.length : ℤ) -
          jsRound (((6/5 : ℚ) - 1/2) * (createBuffer 1 30 10).sampleRate)| ≤ 1) ∧
    AudioEngine.initEngine.splitBuffer (createBuffer 1 30 10) [] = Except.ok [] :=
  ⟨splitBuffer_roundTrip.1 (createBuffer 1 30 10) { start := 1/2, stop := 6/5 }
      (by norm_num [createBuffer]),
   (splitBuffer_roundTrip.2.2 AudioEngine.initEngine (createBuffer 1 30 10) [] rfl).1⟩

lemma highLight_preserves (d : TrimbarsDrawer) (m : MousePos) :
    (d.highLightTrimBarsWhenClose m).leftTrimBar.x = d.leftTrimBar.x ∧
    (d.highLightTrimBarsWhenClose m).rightTrimBar.x = d.rightTrimBar.x ∧
    (d.highLightTrimBarsWhenClose m).leftTrimBar.dragged = d.leftTrimBar.dragged ∧
    (d.highLightTrimBarsWhenClose m).rightTrimBar.dragged = d.rightTrimBar.dragged ∧
    (d.highLightTrimBarsWhenClose m).canvasWidth = d.canvasWidth := by
  simp only [TrimbarsDrawer.highLightTrimBarsWhenClose]
  split_ifs <;> simp

lemma moveTrimBars_left_case (d : TrimbarsDrawer) (m : MousePos)
    (hl : d.leftTrimBar.dragged = true) (hr : d.rightTrimBar.dragged = false) :
    (d.moveTrimBars m).leftTrimBar.dragged = true ∧
    (d.moveTrimBars m).rightTrimBar.dragged = false ∧
    (d.moveTrimBars m).rightTrimBar.x = d.rightTrimBar.x ∧
    (d.moveTrimBars m).canvasWidth = d.canvasWidth ∧
    ((d.moveTrimBars m).leftTrimBar.x = d.leftTrimBar.x ∨
      (d.moveTrimBars m).leftTrimBar.x < d.rightTrimBar.x) := by
  obtain ⟨hx1, hx2, hd1, hd2, hw⟩ := highLight_preserves d m
  simp only [TrimbarsDrawer.moveTrimBars]
  split_ifs with h1 h2 h2 <;> simp_all

lemma moveTrimBars_right_case (d : TrimbarsDrawer) (m : MousePos)
    (hl : d.leftTrimBar.dragged = false) (hr : d.rightTrimBar.dragged = true) :
    (d.moveTrimBars m).leftTrimBar.dragged = false ∧
    (d.moveTrimBars m).rightTrimBar.dragged = true ∧
    (d.moveTrimBars m).leftTrimBar.x = d.leftTrimBar.x ∧
    (d.moveTrimBars m).canvasWidth = d.canvasWidth ∧
    ((d.moveTrimBars m).rightTrimBar.x = d.rightTrimBar.x ∨
      d.leftTrimBar.x < (d.moveTrimBars m).rightTrimBar.x) := by
  obtain ⟨hx1, hx2, hd1, hd2, hw⟩ := highLight_preserves d m
  simp only [TrimbarsDrawer.moveTrimBars]
  split_ifs with h1 h2 h2 <;> simp_all

lemma moveTrimBars_reject_left (d : TrimbarsDrawer) (m : MousePos)
    (hx : ¬(max 0 (min m.x d.canvasWidth) < d.rightTrimBar.x)) :
    (d.moveTrimBars m).leftTrimBar.x = d.leftTrimBar.x := by
  obtain ⟨hx1, hx2, hd1, hd2, hw⟩ := highLight_preserves d m
  simp only [TrimbarsDrawer.moveTrimBars]
  split_ifs with h1 h2 h2
  · rw [hw, hx2] at h1
    exact absurd h1.2 hx
  · rw [hw, hx2] at h1
    exact absurd h1.2 hx
  · exact hx1
  · exact hx1

lemma moveTrimBars_reject_right (d : TrimbarsDrawer) (m : MousePos)
    (hl : d.leftTrimBar.dragged = false)
    (hx : ¬(d.leftTrimBar.x < max 0 (min m.x d.canvasWidth))) :
    (d.moveTrimBars m).rightTrimBar.x = d.rightTrimBar.x := by
  obtain ⟨hx1, hx2, hd1, hd2, hw⟩ := highLight_preserves d m
  simp only [TrimbarsDrawer.moveTrimBars]
  split_ifs with h1 h2 h2
  · rw [hd1, hl] at h1
    exact absurd h1.1 (by simp)
  · rw [hd1, hl] at h1
    exact absurd h1.1 (by simp)
  · rw [hw, hx1] at h2
    exact absurd h2.2 hx
  · exact hx2

lemma foldl_moveTrimBars_left (ms : List MousePos) :
    ∀ d : TrimbarsDrawer, d.leftTrimBar.dragged = true → d.rightTrimBar.dragged = false →
    d.leftTrimBar.x ≤ d.rightTrimBar.x →
    (ms.foldl TrimbarsDrawer.moveTrimBars d).leftTrimBar.dragged = true ∧
    (ms.foldl TrimbarsDrawer.moveTrimBars d).rightTrimBar.dragged = false ∧
    (ms.foldl TrimbarsDrawer.moveTrimBars d).rightTrimBar.x = d.rightTrimBar.x ∧
    (ms.foldl TrimbarsDrawer.moveTrimBars d).leftTrimBar.x ≤
      (ms.foldl TrimbarsDrawer.moveTrimBars d).rightTrimBar.x := by
  induction ms with
  | nil => intro d h1 h2 h3; exact ⟨h1, h2, rfl, h3⟩
  | cons m rest ih =>
    intro d h1 h2 h3
    obtain ⟨g1, g2, g3, _, g5⟩ := moveTrimBars_left_case d m h1 h2
    have hle : (d.moveTrimBars m).leftTrimBar.x ≤ (d.moveTrimBars m).rightTrimBar.x := by
      rcases g5 with g5 | g5
      · rw [g5, g3]; exact h3
      · rw [g3]; exact le_of_lt g5
    obtain ⟨r1, r2, r3, r4⟩ := ih (d.moveTrimBars m) g1 g2 hle
    exact ⟨r1, r2, r3.trans g3, r4⟩

lemma foldl_moveTrimBars_right (ms : List MousePos) :
    ∀ d : TrimbarsDrawer, d.leftTrimBar.dragged = false → d.rightTrimBar.dragged = true →
    d.leftTrimBar.x ≤ d.rightTrimBar.x →
    (ms.foldl TrimbarsDrawer.moveTrimBars d).leftTrimBar.dragged = false ∧
    (ms.foldl TrimbarsDrawer.moveTrimBars d).rightTrimBar.dragged = true ∧
    (ms.foldl TrimbarsDrawer.moveTrimBars d).leftTrimBar.x = d.leftTrimBar.x ∧
    (ms.foldl TrimbarsDrawer.moveTrimBars d).leftTrimBar.x ≤
      (ms.foldl TrimbarsDrawer.moveTrimBars d).rightTrimBar.x := by
  induction ms with
  | nil => intro d h1 h2 h3; exact ⟨h1, h2, rfl, h3⟩
  | cons m rest ih =>
    intro d h1 h2 h3
    obtain ⟨g1, g2, g3, _, g5⟩ := moveTrimBars_right_case d m h1 h2
    have hle : (d.moveTrimBars m).leftTrimBar.x ≤ (d.moveTrimBars m).rightTrimBar.x := by
      rcases g5 with g5 | g5
      · rw [g5, g3]; exact h3
      · rw [g3]; exact le_of_lt g5
    obtain ⟨r1, r2, r3, r4⟩ := ih (d.moveTrimBars m) g1 g2 hle
    exact ⟨r1, r2, r3.trans g3, r4⟩

lemma stopDrag_left_case (d : TrimbarsDrawer)
    (hl : d.leftTrimBar.dragged = true) (hr : d.rightTrimBar.dragged = false) :
    d.stopDrag.rightTrimBar.x = d.rightTrimBar.x ∧
    d.stopDrag.leftTrimBar.x ≤ d.stopDrag.rightTrimBar.x := by
  simp only [TrimbarsDrawer.stopDrag, hl, hr]
  split_ifs with h1 h2 h2 <;> simp_all

lemma stopDrag_right_case (d : TrimbarsDrawer)
    (hl : d.leftTrimBar.dragged = false) (hr : d.rightTrimBar.dragged = true)
    (hle : d.leftTrimBar.x ≤ d.rightTrimBar.x) :
    d.stopDrag.leftTrimBar.x = d.leftTrimBar.x ∧
    d.stopDrag.leftTrimBar.x ≤ d.stopDrag.rightTrimBar.x := by
  simp only [TrimbarsDrawer.stopDrag, hl, hr]
  split_ifs with h1 h2 h2 <;> simp_all

/-- Claim C4: starting from `left.x ≤ right.x` with exactly one bar dragged,
any sequence of `moveTrimBars` calls followed by `stopDrag` never moves the
non-dragged bar, and ends with `left.x ≤ right.x`; moreover a single move
whose clamped pointer would cross (or touch) the other bar leaves the dragged
bar at its previous position instead of clamping it to the boundary. -/
theorem trimBars_noCross :
    (∀ (d : TrimbarsDrawer) (ms : List MousePos),
      d.leftTrimBar.dragged = true → d.rightTrimBar.dragged = false →
      d.leftTrimBar.x ≤ d.rightTrimBar.x →
      ((ms.foldl TrimbarsDrawer.moveTrimBars d).stopDrag).rightTrimBar.x =
        d.rightTrimBar.x ∧
      ((ms.foldl TrimbarsDrawer.moveTrimBars d).stopDrag).leftTrimBar.x ≤
        ((ms.foldl TrimbarsDrawer.moveTrimBars d).stopDrag).rightTrimBar.x) ∧
    (∀ (d : TrimbarsDrawer) (ms : List MousePos),
      d.leftTrimBar.dragged = false → d.rightTrimBar.dragged = true →
      d.leftTrimBar.x ≤ d.rightTrimBar.x →
      ((ms.foldl TrimbarsDrawer.moveTrimBars d).stopDrag).leftTrimBar.x =
        d.leftTrimBar.x ∧
      ((ms.foldl TrimbarsDrawer.moveTrimBars d).stopDrag).leftTrimBar.x ≤
        ((ms.foldl TrimbarsDrawer.moveTrimBars d).stopDrag).rightTrimBar.x) ∧
    (∀ (d : TrimbarsDrawer) (m : MousePos),
      ¬(max 0 (min m.x d.canvasWidth) < d.rightTrimBar.x) →
      (d.moveTrimBars m).leftTrimBar.x = d.leftTrimBar.x) ∧
    (∀ (d : TrimbarsDrawer) (m : MousePos),
      d.leftTrimBar.dragged = false →
      ¬(d.leftTrimBar.x < max 0 (min m.x d.canvasWidth)) →
      (d.moveTrimBars m).rightTrimBar.x = d.rightTrimBar.x) := by
  refine ⟨?_, ?_, moveTrimBars_reject_left, moveTrimBars_reject_right⟩
  · intro d ms h1 h2 h3
    obtain ⟨g1, g2, g3, g4⟩ := foldl_moveTrimBars_left ms d h1 h2 h3
    obtain ⟨s1, s2⟩ := stopDrag_left_case _ g1 g2
    exact ⟨s1.trans g3, s2⟩
  · intro d ms h1 h2 h3
    obtain ⟨g1, g2, g3, g4⟩ := foldl_moveTrimBars_right ms d h1 h2 h3
    obtain ⟨s1, s2⟩ := stopDrag_right_case _ g1 g2 g4
    exact ⟨s1.trans g3, s2⟩

/-- A concrete drawer state for the claim C4 witness: left bar dragged at
`x = 100`, right bar at rest at `x = 300`, canvas 400 pixels wide. -/
def witnessDrawer : TrimbarsDrawer :=
  { canvasWidth := 400
    canvasHeight := 100
    leftTrimBar :=
      { x := 100, color := "#00ff00", selectedColor := "#ff6b6b",
        selected := false, dragged := true }
    rightTrimBar :=
      { x := 300, color := "#00ff00", selectedColor := "#ff6b6b",
        selected := false, dragged := false } }

/-- Claim C4 witness: a concrete left-drag with one out-of-range move. -/
theorem trimBars_noCross_witness :
    ((([({ x := 500, y := 10 } : MousePos)]).foldl TrimbarsDrawer.moveTrimBars
        witnessDrawer).stopDrag).rightTrimBar.x = witnessDrawer.rightTrimBar.x ∧
    ((([({ x := 500, y := 10 } : MousePos)]).foldl TrimbarsDrawer.moveTrimBars
        witnessDrawer).stopDrag).leftTrimBar.x ≤
      ((([({ x := 500, y := 10 } : MousePos)]).foldl TrimbarsDrawer.moveTrimBars
        witnessDrawer).stopDrag).rightTrimBar.x :=
  trimBars_noCross.1 witnessDrawer [{ x := 500, y := 10 }] rfl rfl (by norm_num [witnessDrawer])

lemma ratLength_eq (l : List ℚ) : ratLength l = (l.length : ℚ) := by
  induction l with
  | nil => rfl
  | cons a t ih =>
    show ratLength t + 1 = ((t.length + 1 : ℕ) : ℚ)
    rw [ih]
    push_cast
    ring

/-- The loop invariant of `detectSoundSegments` after processing the first `n`
samples: segments are strictly separated with length at least
`minSoundSamples / sampleRate`; an open sound region satisfies
`soundStart ≤ silenceStart < n` and began after every emitted segment; with no
open region every emitted segment ends before sample `n`. -/
def DetectInv (minSoundSamples sampleRate : ℚ) (n : ℚ) (st : DetectState) : Prop :=
  List.Pairwise (fun a b => a.stop < b.start) st.segments ∧
  (∀ s ∈ st.segments, minSoundSamples / sampleRate ≤ s.stop - s.start) ∧
  (st.isInSound = true → st.soundStart ≤ st.silenceStart ∧ st.silenceStart < n ∧
    ∀ s ∈ st.segments, s.stop < st.soundStart / sampleRate) ∧
  (st.isInSound = false → ∀ s ∈ st.segments, s.stop < n / sampleRate)

lemma detectStep_inv (thr minSilS minSndS sr : ℚ) (hsr : 0 < sr)
    (st : DetectState) (n : ℚ) (a : ℚ) (h : DetectInv minSndS sr n st) :
    DetectInv minSndS sr (n + 1) (detectStep thr minSilS minSndS sr st n a) := by
  obtain ⟨hpw, hlen, hin, hout⟩ := h
  simp only [detectStep]
  split_ifs with hloud hisin hclose hsnd
  · -- loud sample, already in sound: silenceStart := n
    obtain ⟨hss, hsl, hstops⟩ := hin hisin
    refine ⟨hpw, hlen, ?_, ?_⟩
    · intro _
      exact ⟨le_of_lt (lt_of_le_of_lt hss hsl), lt_add_one n, hstops⟩
    · intro hF
      rw [hisin] at hF
      exact absurd hF (by simp)
  · -- loud sample, not in sound: open a region at n
    have hfalse : st.isInSound = false := by
      revert hisin
      cases st.isInSound <;> simp
    refine ⟨hpw, hlen, ?_, ?_⟩
    · intro _
      exact ⟨le_refl n, lt_add_one n, hout hfalse⟩
    · intro hF
      exact absurd hF (by simp)
  · -- silent sample closing a long-enough region: emit the segment
    obtain ⟨hss, hsl, hstops⟩ := hin hclose.1
    have hmono : ∀ x y : ℚ, x ≤ y → x / sr ≤ y / sr :=
      fun x y hxy => (div_le_div_iff_of_pos_right hsr).mpr hxy
    have hmonolt : ∀ x y : ℚ, x < y → x / sr < y / sr :=
      fun x y hxy => (div_lt_div_iff_of_pos_right hsr).mpr hxy
    refine ⟨?_, ?_, ?_, ?_⟩
    · rw [List.pairwise_append]
      exact ⟨hpw, List.pairwise_singleton _ _,
        fun a ha b hb => by
          rw [List.mem_singleton] at hb
          subst hb
          exact hstops a ha⟩
    · intro s hs
      rw [List.mem_append, List.mem_singleton] at hs
      rcases hs with hs | hs
      · exact hlen s hs
      · subst hs
        show minSndS / sr ≤ st.silenceStart / sr - st.soundStart / sr
        rw [div_sub_div_same]
        exact (div_le_div_iff_of_pos_right hsr).mpr hsnd
    · intro hF
      exact absurd hF (by simp)
    · intro _ s hs
      rw [List.mem_append, List.mem_singleton] at hs
      have hn1 : st.silenceStart / sr < (n + 1) / sr :=
        hmonolt _ _ (lt_trans hsl (lt_add_one n))
      rcases hs with hs | hs
      · exact lt_trans (hstops s hs) (lt_of_le_of_lt (hmono _ _ hss) hn1)
      · subst hs
        exact hn1
  · -- silent sample closing a too-short region: discard it
    obtain ⟨hss, hsl, hstops⟩ := hin hclose.1
    refine ⟨hpw, hlen, ?_, ?_⟩
    · intro hF
      exact absurd hF (by simp)
    · intro _ s hs
      have hmono : st.soundStart / sr ≤ st.silenceStart / sr :=
        (div_le_div_iff_of_pos_right hsr).mpr hss
      have hn1 : st.silenceStart / sr < (n + 1) / sr :=
        (div_lt_div_iff_of_pos_right hsr).mpr (lt_trans hsl (lt_add_one n))
      exact lt_trans (hstops s hs) (lt_of_le_of_lt hmono hn1)
  · -- silent sample, no closing: state unchanged, index advances
    refine ⟨hpw, hlen, ?_, ?_⟩
    · intro hisin
      obtain ⟨hss, hsl, hstops⟩ := hin hisin
      exact ⟨hss, lt_trans hsl (lt_add_one n), hstops⟩
    · intro hisout
      intro s hs
      exact lt_trans (hout hisout s hs)
        ((div_lt_div_iff_of_pos_right hsr).mpr (lt_add_one n))

lemma detectLoop_inv (thr minSilS minSndS sr : ℚ) (hsr : 0 < sr) :
    ∀ (data : List ℚ) (n : ℚ) (st : DetectState), DetectInv minSndS sr n st →
    DetectInv minSndS sr (n + data.length)
      (detectLoop thr minSilS minSndS sr n data st) := by
  intro data
  induction data with
  | nil => intro n st h; simpa using h
  | cons a rest ih =>
    intro n st h
    have h2 := ih (n + 1) _ (detectStep_inv thr minSilS minSndS sr hsr st n a h)
    have harith : (n + ((a :: rest).length : ℕ) : ℚ) = (n + 1) + (rest.length : ℕ) := by
      push_cast [List.length_cons]
      ring
    rw [harith]
    exact h2

lemma segment_list_conclusions (segs : List SoundSegment) (minSndDur : ℚ)
    (hsnd : 0 < minSndDur)
    (hpw : List.Pairwise (fun a b => a.stop < b.start) segs)
    (hlen : ∀ s ∈ segs, minSndDur ≤ s.stop - s.start) :
    (∀ s ∈ segs, s.start < s.stop) ∧
    List.Pairwise (fun a b => a.start < b.start) segs := by
  have hss : ∀ s ∈ segs, s.start < s.stop := by
    intro s hs
    have := hlen s hs
    linarith
  refine ⟨hss, hpw.imp_of_mem ?_⟩
  intro a b ha hb hr
  exact lt_trans (hss a ha) hr

/-- Claim C3: for every buffer with a positive sample rate and positive
threshold and duration parameters, the segments returned by
`detectSoundSegments` are strictly ordered by `start`, pairwise non-overlapping
(each segment ends strictly before the next begins), each at least
`minSoundDuration` long, and each with `start < stop`. -/
theorem detectSoundSegments_monotone (buffer : AudioBuffer)
    (thr minSilDur minSndDur : ℚ) (hsr : 0 < buffer.sampleRate)
    (hthr : 0 < thr) (hsil : 0 < minSilDur) (hsnd : 0 < minSndDur) :
    List.Pairwise (fun a b => a.stop < b.start)
      (detectSoundSegments buffer thr minSilDur minSndDur) ∧
    (∀ s ∈ detectSoundSegments buffer thr minSilDur minSndDur,
      minSndDur ≤ s.stop - s.start) ∧
    (∀ s ∈ detectSoundSegments buffer thr minSilDur minSndDur, s.start < s.stop) ∧
    List.Pairwise (fun a b => a.start < b.start)
      (detectSoundSegments buffer thr minSilDur minSndDur) := by
  have hsrne : buffer.sampleRate ≠ 0 := ne_of_gt hsr
  have hconv : minSndDur * buffer.sampleRate / buffer.sampleRate = minSndDur :=
    mul_div_cancel_right₀ minSndDur hsrne
  have hinv0 : DetectInv (minSndDur * buffer.sampleRate) buffer.sampleRate 0
      { isInSound := false, soundStart := 0, silenceStart := 0, segments := [] } := by
    refine ⟨List.Pairwise.nil, ?_, ?_, ?_⟩
    · intro s hs
      exact absurd hs (List.not_mem_nil s)
    · intro hF
      exact absurd hF (by simp)
    · intro _ s hs
      exact absurd hs (List.not_mem_nil s)
  have hfin := detectLoop_inv thr (minSilDur * buffer.sampleRate)
    (minSndDur * buffer.sampleRate) buffer.sampleRate hsr
    (buffer.getChannelData 0) 0
    { isInSound := false, soundStart := 0, silenceStart := 0, segments := [] } hinv0
  rw [zero_add] at hfin
  set data := buffer.getChannelData 0 with hdata
  set final := detectLoop thr (minSilDur * buffer.sampleRate)
    (minSndDur * buffer.sampleRate) buffer.sampleRate 0 data
    { isInSound := false, soundStart := 0, silenceStart := 0, segments := [] } with hfinal
  obtain ⟨hpw, hlen, hin, hout⟩ := hfin
  by_cases hlast : final.isInSound = true ∧
      minSndDur * buffer.sampleRate ≤ ratLength data - final.soundStart
  · have hE : detectSoundSegments buffer thr minSilDur minSndDur =
        final.segments ++
          [{ start := final.soundStart / buffer.sampleRate,
             stop := ratLength data / buffer.sampleRate }] := by
      simp only [detectSoundSegments]
      rw [← hdata, ← hfinal, if_pos hlast]
    obtain ⟨hss, hsl, hstops⟩ := hin hlast.1
    have hlenq : ratLength data = (data.length : ℚ) := ratLength_eq data
    have hpw' : List.Pairwise (fun a b => a.stop < b.start) (final.segments ++
        [{ start := final.soundStart / buffer.sampleRate,
           stop := ratLength data / buffer.sampleRate }]) := by
      rw [List.pairwise_append]
      refine ⟨hpw, List.pairwise_singleton _ _, ?_⟩
      intro a ha b hb
      rw [List.mem_singleton] at hb
      subst hb
      exact hstops a ha
    have hlen' : ∀ s ∈ final.segments ++
        [{ start := final.soundStart / buffer.sampleRate,
           stop := ratLength data / buffer.sampleRate }],
        minSndDur ≤ s.stop - s.start := by
      intro s hs
      rw [List.mem_append, List.mem_singleton] at hs
      rcases hs with hs | hs
      · have := hlen s hs
        rw [hconv] at this
        exact this
      · subst hs
        show minSndDur ≤ ratLength data / buffer.sampleRate -
          final.soundStart / buffer.sampleRate
        rw [div_sub_div_same]
        rw [← hconv]
        exact (div_le_div_iff_of_pos_right hsr).mpr hlast.2
    obtain ⟨hss', hpws'⟩ := segment_list_conclusions _ minSndDur hsnd hpw' hlen'
    rw [hE]
    exact ⟨hpw', hlen', hss', hpws'⟩
  · have hE : detectSoundSegments buffer thr minSilDur minSndDur = final.segments := by
      simp only [detectSoundSegments]
      rw [← hdata, ← hfinal, if_neg hlast]
    have hlen' : ∀ s ∈ final.segments, minSndDur ≤ s.stop - s.start := by
      intro s hs
      have := hlen s hs
      rw [hconv] at this
      exact this
    obtain ⟨hss', hpws'⟩ := segment_list_conclusions _ minSndDur hsnd hpw hlen'
    rw [hE]
    exact ⟨hpw, hlen', hss', hpws'⟩

/-- Claim C3 witness: the monotonicity facts at the synthetic two-burst
buffer with the scenario parameters. -/
theorem detectSoundSegments_monotone_witness :
    List.Pairwise (fun a b => a.stop < b.start)
      (detectSoundSegments syntheticTwoBurstBuffer (2/100) (1/10) (5/100)) ∧
    (∀ s ∈ detectSoundSegments syntheticTwoBurstBuffer (2/100) (1/10) (5/100),
      (5:ℚ)/100 ≤ s.stop - s.start) ∧
    (∀ s ∈ detectSoundSegments syntheticTwoBurstBuffer (2/100) (1/10) (5/100),
      s.start < s.stop) ∧
    List.Pairwise (fun a b => a.start < b.start)
      (detectSoundSegments syntheticTwoBurstBuffer (2/100) (1/10) (5/100)) :=
  detectSoundSegments_monotone syntheticTwoBurstBuffer (2/100) (1/10) (5/100)
    (by norm_num [syntheticTwoBurstBuffer]) (by norm_num) (by norm_num) (by norm_num)
